import Mathlib

/-!
# Verification of the relationship / feed-visibility core of `hollo-fork`

Shallow embedding of `src/api/v1/accounts.ts`: the relational rows
(Account, Follow, Block, Mute, Post, Mention, pinned posts, media) become
Lean structures, and each handler's query/mutation logic becomes an
executable Lean function over an explicit database state.  Timestamps are
modelled as natural numbers, account and post identifiers as naturals
(UUIDs abstracted), and SQL subqueries as `List.any` / `List.filter`.
-/

namespace Hollo

/-- Post visibility classes (`posts.visibility`).  `private` is a Lean
keyword, hence the trailing underscore. -/
inductive Visibility where
  | public
  | unlisted
  | private_
  | direct
deriving DecidableEq, Repr

/-- An `accounts` row (the columns this development needs: `id`, `handle`,
`iri`, `protected`, and whether an `accountOwners` row exists, i.e. the
account is local).  `protected` is a Lean keyword, hence `protected_`. -/
structure Account where
  id : Nat
  handle : String
  iri : String
  protected_ : Bool
  ownerPresent : Bool
deriving DecidableEq, Repr

/-- A `follows` row: directed edge `followerId → followingId` with a
nullable `approved` timestamp (null = pending request). -/
structure Follow where
  followerId : Nat
  followingId : Nat
  approved : Option Nat
deriving DecidableEq, Repr

/-- A `blocks` row: `accountId` blocks `blockedAccountId`. -/
structure Block where
  accountId : Nat
  blockedAccountId : Nat
deriving DecidableEq, Repr

/-- A `mutes` row: `accountId` mutes `mutedAccountId`, with the
`notifications` flag, a nullable `duration` (modelled in seconds) and the
`created` timestamp. -/
structure Mute where
  id : Nat
  accountId : Nat
  mutedAccountId : Nat
  notifications : Bool
  duration : Option Nat
  created : Nat
deriving DecidableEq, Repr

/-- A `posts` row (the columns the statuses query touches). -/
structure Post where
  id : Nat
  accountId : Nat
  published : Nat
  visibility : Visibility
  replyTargetId : Option Nat
  sharingId : Option Nat
deriving DecidableEq, Repr

/-- A `mentions` row: `(postId, accountId)` pair. -/
structure Mention where
  postId : Nat
  accountId : Nat
deriving DecidableEq, Repr

/-- A `pinnedPosts` row: `(accountId, postId)` pair. -/
structure PinnedPost where
  accountId : Nat
  postId : Nat
deriving DecidableEq, Repr

/-- The database state: one list per relation.  `media` keeps only the
`postId` column, which is all the statuses query selects from it. -/
structure DB where
  accounts : List Account
  follows : List Follow
  blocks : List Block
  mutes : List Mute
  posts : List Post
  mentions : List Mention
  pinnedPosts : List PinnedPost
  media : List Nat
deriving DecidableEq, Repr

/-- Query options of `GET /:id/statuses` (lines 509-689): the optional
filters the handler actually applies, the `max_id`/`min_id` cursor pair,
and the page size (`query.limit ?? 20`). -/
structure StatusesQuery where
  pinned : Bool
  excludeReplies : Bool
  onlyMedia : Bool
  maxId : Option Nat
  minId : Option Nat
  limit : Nat
deriving DecidableEq, Repr

/-- A mute row currently suppresses content: source lines 601-612,
`or(isNull(mutes.duration), gt(mutes.created + mutes.duration,
CURRENT_TIMESTAMP))`. -/
def muteIsActive (now : Nat) (m : Mute) : Bool :=
  match m.duration with
  | none => true
  | some d => decide (m.created + d > now)

/-- Source lines 570-575: `SELECT followingId FROM follows WHERE
followerId = tokenOwner.id AND followingId = id`; the handler only tests
`following.length > 0`.  Note: no condition on `approved`. -/
def followingExists (st : DB) (viewer target : Nat) : Bool :=
  st.follows.any fun f => f.followerId == viewer && f.followingId == target

/-- Source lines 586-593: the post is mentioned by a mention row whose
`accountId` is the viewer. -/
def mentionsViewer (st : DB) (viewer : Nat) (p : Post) : Bool :=
  st.mentions.any fun mn => mn.postId == p.id && mn.accountId == viewer

/-- Source lines 596-613: the subquery of actively muted account ids,
applied to an author id. -/
def authorMutedByViewer (st : DB) (viewer now author : Nat) : Bool :=
  st.mutes.any fun m =>
    m.accountId == viewer && m.mutedAccountId == author && muteIsActive now m

/-- Source lines 615-621: author ids blocked by the viewer. -/
def authorBlockedByViewer (st : DB) (viewer author : Nat) : Bool :=
  st.blocks.any fun b => b.accountId == viewer && b.blockedAccountId == author

/-- Source lines 623-629: author ids that have blocked the viewer. -/
def authorBlocksViewer (st : DB) (viewer author : Nat) : Bool :=
  st.blocks.any fun b => b.blockedAccountId == viewer && b.accountId == author

/-- Source lines 631-652: the post is a repost (`sharingId` set) whose
original post's author is actively muted by the viewer (inner join of
`posts` and `mutes` on `mutes.mutedAccountId = posts.accountId`). -/
def sharedFromMutedAuthor (st : DB) (viewer now : Nat) (p : Post) : Bool :=
  match p.sharingId with
  | none => false
  | some sid =>
      st.posts.any fun q => q.id == sid && authorMutedByViewer st viewer now q.accountId

/-- Source lines 579-594: the direct-visibility disjunction.  The
`private` disjunct is present exactly when `following.length > 0`
(pending or approved — the query does not inspect `approved`). -/
def visibilityClause (st : DB) (viewer target : Nat) (p : Post) : Bool :=
  p.accountId == viewer
    || p.visibility == .public
    || p.visibility == .unlisted
    || (followingExists st viewer target && p.visibility == .private_)
    || (p.visibility == .direct && mentionsViewer st viewer p)

/-- The full `where` conjunction of the statuses query, source lines
577-670 (the `tagged` parameter is accepted by the validator but never
used in the `where` clause, so it does not appear here). -/
def postWhere (st : DB) (viewer target now : Nat) (q : StatusesQuery) (p : Post) : Bool :=
  p.accountId == target
    && visibilityClause st viewer target p
    && !authorMutedByViewer st viewer now p.accountId
    && !authorBlockedByViewer st viewer p.accountId
    && !authorBlocksViewer st viewer p.accountId
    && !sharedFromMutedAuthor st viewer now p
    && (if q.pinned then
          st.pinnedPosts.any fun pp => pp.accountId == target && pp.postId == p.id
        else true)
    && (if q.excludeReplies then p.replyTargetId.isNone else true)
    && (if q.onlyMedia then st.media.any fun mid => mid == p.id else true)
    && (match q.maxId with | none => true | some mid => decide (p.id < mid))
    && (match q.minId with | none => true | some mid => decide (p.id > mid))

/-- Source line 672, `ORDER BY published DESC, id DESC`: `a` sorts no
later than `b`. -/
def postOrd (a b : Post) : Bool :=
  decide (b.published < a.published)
    || (a.published == b.published && decide (b.id ≤ a.id))

/-- Insert an element into a list sorted by the Boolean relation `le`
(helper for modelling the query's `ORDER BY`; structural recursion so
that concrete listings evaluate inside the kernel). -/
def orderedInsert {α : Type} (le : α → α → Bool) (a : α) : List α → List α
  | [] => [a]
  | b :: l => if le a b then a :: b :: l else b :: orderedInsert le a l

/-- Stable sort by the Boolean relation `le`. -/
def sortByRel {α : Type} (le : α → α → Bool) : List α → List α
  | [] => []
  | a :: l => orderedInsert le a (sortByRel le l)

/-- The ordered result set of the statuses query before the `LIMIT` is
applied: filter by the `where` clause, order newest-first. -/
def eligibleSorted (st : DB) (viewer target now : Nat) (q : StatusesQuery) : List Post :=
  sortByRel postOrd (st.posts.filter (postWhere st viewer target now q))

/-- Source lines 535-547: the handler loads the target together with its
`blocks` rows restricted to `blockedAccountId = tokenOwner.id` and
returns `[]` when any such row exists. -/
def targetBlockedViewer (st : DB) (viewer target : Nat) : Bool :=
  st.blocks.any fun b => b.accountId == target && b.blockedAccountId == viewer

/-- The pagination epilogue (source lines 675-687): when
`postList.length > limit` — equivalently, when index `limit` exists — the
id of `postList[limit]` becomes the `max_id` continuation cursor and only
`postList.slice(0, limit)` is returned; otherwise the whole fetched list
is returned with no cursor. -/
def paginate (limit : Nat) (postList : List Post) : List Post × Option Nat :=
  match postList[limit]? with
  | some nextPost => (postList.take limit, some nextPost.id)
  | none => (postList, none)

/-- Handler `GET /:id/statuses`, the listing core (source lines 535-688): the
short-circuit on a block by the target, the query with `limit: limit + 1`
(line 673), and the pagination epilogue. -/
def accountStatuses (st : DB) (viewer target now : Nat) (q : StatusesQuery) :
    List Post × Option Nat :=
  if targetBlockedViewer st viewer target then ([], none)
  else paginate q.limit ((eligibleSorted st viewer target now q).take (q.limit + 1))

/-- The default query of the endpoint: no optional filter, no cursor,
`limit = 20`. -/
def plainQuery : StatusesQuery :=
  { pinned := false, excludeReplies := false, onlyMedia := false,
    maxId := none, minId := none, limit := 20 }

/-- The client-side enumeration loop of the pagination contract: request a
page, and while a `max_id` continuation cursor comes back, request the
next page with that cursor (`fuel` bounds the recursion). -/
def fetchAllPages (st : DB) (viewer target now : Nat) (q : StatusesQuery) :
    Nat → Option Nat → List Post
  | 0, _ => []
  | Nat.succ fuel, cursor =>
    let res := accountStatuses st viewer target now { q with maxId := cursor }
    match res.2 with
    | none => res.1
    | some c => res.1 ++ fetchAllPages st viewer target now q fuel (some c)

/-- Handler `POST /:id/unmute` (source lines 954-956): delete the mute rows with
`accountId = owner.id` and `mutedAccountId = id`. -/
def unmuteOp (st : DB) (ownerId targetId : Nat) : DB :=
  { st with
    mutes := st.mutes.filter fun m =>
      !(m.accountId == ownerId && m.mutedAccountId == targetId) }

/-- The conflict target of the mute upsert: `(mutes.accountId,
mutes.mutedAccountId)` (source line 908). -/
def mutePair (accId mutedId : Nat) (m : Mute) : Bool :=
  m.accountId == accId && m.mutedAccountId == mutedId

/-- Handler `POST /:id/mute`, the insert (source lines 898-914):
`INSERT ... ON CONFLICT (accountId, mutedAccountId) DO UPDATE SET
notifications, duration, created = now()`.  On conflict the existing row
is updated in place; otherwise a fresh row (whose `created` column
defaults to the current time) is appended. -/
def muteUpsert (rows : List Mute) (newId accId mutedId : Nat) (ntf : Bool)
    (dur : Option Nat) (now : Nat) : List Mute :=
  if rows.any (mutePair accId mutedId) then
    rows.map fun m =>
      if mutePair accId mutedId m then
        { m with notifications := ntf, duration := dur, created := now }
      else m
  else rows ++ [⟨newId, accId, mutedId, ntf, dur, now⟩]

/-- Two-digit decimal field of an ISO 8601 timestamp. -/
def pad2 (n : Nat) : String :=
  if n < 10 then "0" ++ toString n else toString n

/-- The time-of-day component `HH:MM:SS` of
`new Date(d * 1000).toISOString()` for `d` whole seconds since the epoch:
the regex on source line 897 strips the `YYYY-MM-DDT` prefix and the
`.mmmZ` suffix, leaving exactly this. -/
def isoTimeOfDay (d : Nat) : String :=
  pad2 (d / 3600 % 24) ++ ":" ++ pad2 (d / 60 % 60) ++ ":" ++ pad2 (d % 60)

/-- Handler `POST /:id/mute`, the `durationStr` computation (source lines
892-897): `duration <= 0 ? null : <time-of-day of duration seconds>`. -/
def durationStr (d : Int) : Option String :=
  if d ≤ 0 then none else some (isoTimeOfDay d.toNat)

/-- From the claim's wording: the `HH:MM:SS` rendering of a sub-day
second count `t` (for `t < 86400`). -/
def hhmmss (t : Nat) : String :=
  pad2 (t / 3600) ++ ":" ++ pad2 (t / 60 % 60) ++ ":" ++ pad2 (t % 60)

/-- Outcome of the follow handler, `POST /:id/follow` (source lines
691-743): 404 when the target does not exist, 403 (`"The action is not
allowed"`) when `followAccount` returns the `null` sentinel, success
otherwise. -/
inductive FollowOutcome where
  | notFound
  | actionNotAllowed
  | ok (f : Follow)
deriving DecidableEq, Repr

/-- A Block row exists in either direction between `a` and `b`. -/
def blockExistsBetween (st : DB) (a b : Nat) : Bool :=
  st.blocks.any fun blk =>
    (blk.accountId == a && blk.blockedAccountId == b)
      || (blk.accountId == b && blk.blockedAccountId == a)

/-- Modelled from the spec: `followAccount` is imported from
`../../federation/account`, which is not under `src/`; §4.2 of the spec
defines it: precondition "no existing Block either direction; A≠B" — on
violation return the null sentinel and leave the store untouched;
otherwise create `Follow(A,B)` with `approved = null` when B is
protected, `approved = now` otherwise (upsert keyed by the ordered pair,
per §9). -/
def followAccount (st : DB) (now followerId followeeId : Nat)
    (followeeProtected : Bool) : Option Follow × DB :=
  if blockExistsBetween st followerId followeeId || followerId == followeeId then
    (none, st)
  else
    let f : Follow :=
      ⟨followerId, followeeId, if followeeProtected then none else some now⟩
    (some f,
     { st with
       follows :=
         (st.follows.filter fun g =>
           !(g.followerId == followerId && g.followingId == followeeId)) ++ [f] })

/-- Query `db.query.accounts.findFirst` by account id. -/
def findAccount (st : DB) (i : Nat) : Option Account :=
  st.accounts.find? fun a => a.id == i

/-- Handler `POST /:id/follow` (source lines 691-743): resolve the target, call
the engine, translate the `null` sentinel into the 403-style
`actionNotAllowed` result. -/
def followHandler (st : DB) (now ownerId targetId : Nat) : FollowOutcome × DB :=
  match findAccount st targetId with
  | none => (.notFound, st)
  | some following =>
    match followAccount st now ownerId targetId following.protected_ with
    | (none, st') => (.actionNotAllowed, st')
    | (some f, st') => (.ok f, st')

/-- A dereferenced remote actor document (the fields `persistAccount`
translates that this development needs), plus the `isActor` type check of
source line 346. -/
structure ActorDoc where
  iri : String
  handle : String
  isActor : Bool
deriving DecidableEq, Repr

/-- Outcome of the lookup handler. -/
inductive LookupResult where
  | notFound
  | found (a : Account)
deriving DecidableEq, Repr

/-- Source lines 323-328: the handle the local lookup matches against —
`acct` contains `@` already: `"@" + acct`; otherwise
`"@" + acct + "@" + host`. -/
def normalizeHandle (host acct : String) : String :=
  if acct.data.contains '@' then "@" ++ acct else "@" ++ acct ++ "@" ++ host

/-- Query `db.query.accounts.findFirst` by handle. -/
def findByHandle (st : DB) (h : String) : Option Account :=
  st.accounts.find? fun a => a.handle == h

/-- Lookup of an account row by its federation IRI. -/
def findByIri (st : DB) (iri : String) : Option Account :=
  st.accounts.find? fun a => a.iri == iri

/-- Modelled from the spec: `persistAccount` is imported from
`../../federation/account`, which is not under `src/`; §4.1 of the spec
defines it: upsert an Account row translating the actor document's
fields, idempotently — the existing row is matched by federation IRI, so
resolving the same remote identifier twice never creates a duplicate
row.  Remote accounts carry no owner; the fresh id is the next unused
index. -/
def persistAccount (st : DB) (doc : ActorDoc) : Account × DB :=
  match findByIri st doc.iri with
  | some a =>
    ({ a with handle := doc.handle },
     { st with
       accounts := st.accounts.map fun b =>
         if b.iri == doc.iri then { b with handle := doc.handle } else b })
  | none =>
    let a : Account := ⟨st.accounts.length, doc.handle, doc.iri, false, false⟩
    (a, { st with accounts := st.accounts ++ [a] })

/-- Handler `GET /lookup` (source lines 303-368).  `world` is the federation
transport's `lookupObject`; the third component counts how many remote
dereferences the call performed.  Local match first (no network); when no
local row matches and `skip_webfinger` is `"false"`, dereference, check
`isActor`, and persist. -/
def lookupHandler (world : String → Option ActorDoc) (st : DB)
    (host acct : String) (skipWebfinger : Bool) : LookupResult × DB × Nat :=
  match findByHandle st (normalizeHandle host acct) with
  | some a => (.found a, st, 0)
  | none =>
    if skipWebfinger then (.notFound, st, 0)
    else
      match world acct with
      | none => (.notFound, st, 1)
      | some doc =>
        if doc.isActor then
          let pr := persistAccount st doc
          (.found pr.1, pr.2, 1)
        else (.notFound, st, 1)

/-! Concrete states used by counterexamples and witnesses. -/

/-- C1 failing input: the viewer's only Follow edge to the target is
pending (`approved = null`). -/
def c1follow : Follow := ⟨1, 2, none⟩

/-- C1 failing input: a `private`-visibility post of account 2. -/
def c1post : Post := ⟨10, 2, 5, .private_, none, none⟩

/-- C1 failing input: store holding only the pending follow 1 → 2 and the
private post. -/
def c1state : DB := ⟨[], [c1follow], [], [], [c1post], [], [], []⟩

/-- C3 failing input: three public posts of account 2, ids 3, 2, 1, with
`published` in the same order. -/
def c3posts : List Post :=
  [⟨3, 2, 3, .public, none, none⟩, ⟨2, 2, 2, .public, none, none⟩,
   ⟨1, 2, 1, .public, none, none⟩]

/-- C3 failing input: store holding only those three posts. -/
def c3state : DB := ⟨[], [], [], [], c3posts, [], [], []⟩

/-- C3 failing input: page size 1, no filters. -/
def c3query : StatusesQuery := ⟨false, false, false, none, none, 1⟩

/-- C5: the examined mute row 1 → 2, with variable notification flag,
duration and creation time. -/
def mute12 (ntf : Bool) (dur : Option Nat) (created : Nat) : Mute :=
  ⟨0, 1, 2, ntf, dur, created⟩

/-- C5: a public post of the muted account 2. -/
def c5post : Post := ⟨10, 2, 5, .public, none, none⟩

/-- C5: store with exactly the mute row and the post. -/
def c5state (ntf : Bool) (dur : Option Nat) (created : Nat) : DB :=
  ⟨[], [], [], [mute12 ntf dur created], [c5post], [], [], []⟩

/-- C6: the original post, authored by account 2. -/
def c6orig : Post := ⟨10, 2, 5, .public, none, none⟩

/-- C6: a repost of post 10, boosted by account 3 (`sharingId = 10`). -/
def c6boost : Post := ⟨11, 3, 6, .public, none, some 10⟩

/-- C10 witness: remote world with a single actor document. -/
def c10doc : ActorDoc :=
  ⟨"https://remote.example/users/alice", "@alice@remote.example", true⟩

/-- C10 witness: `lookupObject` resolves exactly that one identifier. -/
def c10world : String → Option ActorDoc :=
  fun s => if s == "alice@remote.example" then some c10doc else none

/-! ## Sorting infrastructure -/

theorem orderedInsert_perm {α : Type} (le : α → α → Bool) (a : α) (l : List α) :
    (orderedInsert le a l).Perm (a :: l) := by
  induction l with
  | nil => simp [orderedInsert]
  | cons b l ih =>
    rw [orderedInsert]
    split
    · exact List.Perm.refl _
    · exact (ih.cons b).trans (List.Perm.swap a b l)

theorem sortByRel_perm {α : Type} (le : α → α → Bool) (l : List α) :
    (sortByRel le l).Perm l := by
  induction l with
  | nil => simp [sortByRel]
  | cons a l ih =>
    rw [sortByRel]
    exact (orderedInsert_perm le a _).trans (ih.cons a)

theorem mem_sortByRel {α : Type} {le : α → α → Bool} {a : α} {l : List α} :
    a ∈ sortByRel le l ↔ a ∈ l :=
  (sortByRel_perm le l).mem_iff

theorem pairwise_orderedInsert {α : Type} {le : α → α → Bool}
    (htr : ∀ a b c, le a b = true → le b c = true → le a c = true)
    (hto : ∀ a b, le a b = true ∨ le b a = true)
    (a : α) {l : List α} (hs : l.Pairwise fun x y => le x y = true) :
    (orderedInsert le a l).Pairwise fun x y => le x y = true := by
  induction l with
  | nil => simp [orderedInsert]
  | cons b l ih =>
    obtain ⟨hb, hl⟩ := List.pairwise_cons.mp hs
    rw [orderedInsert]
    split
    case isTrue h =>
      refine List.pairwise_cons.mpr ⟨?_, hs⟩
      intro x hx
      rcases List.mem_cons.mp hx with rfl | hx
      · exact h
      · exact htr a b x h (hb x hx)
    case isFalse h =>
      refine List.pairwise_cons.mpr ⟨?_, ih hl⟩
      intro x hx
      rcases List.mem_cons.mp ((orderedInsert_perm le a l).mem_iff.mp hx) with rfl | hx
      · rcases hto b x with hgood | hbad
        · exact hgood
        · exact absurd hbad h
      · exact hb x hx

theorem pairwise_sortByRel {α : Type} {le : α → α → Bool}
    (htr : ∀ a b c, le a b = true → le b c = true → le a c = true)
    (hto : ∀ a b, le a b = true ∨ le b a = true) (l : List α) :
    (sortByRel le l).Pairwise fun x y => le x y = true := by
  induction l with
  | nil => simp [sortByRel]
  | cons a l ih =>
    rw [sortByRel]
    exact pairwise_orderedInsert htr hto a ih

theorem postOrd_trans (a b c : Post) :
    postOrd a b = true → postOrd b c = true → postOrd a c = true := by
  simp only [postOrd, Bool.or_eq_true, Bool.and_eq_true, decide_eq_true_eq,
    beq_iff_eq]
  omega

theorem postOrd_total (a b : Post) : postOrd a b = true ∨ postOrd b a = true := by
  simp only [postOrd, Bool.or_eq_true, Bool.and_eq_true, decide_eq_true_eq,
    beq_iff_eq]
  omega

/-- Every post of a returned page satisfies the full `where` conjunction
of the statuses query. -/
theorem mem_statuses_postWhere {st : DB} {viewer target now : Nat}
    {q : StatusesQuery} {p : Post}
    (hp : p ∈ (accountStatuses st viewer target now q).1) :
    postWhere st viewer target now q p = true := by
  rw [accountStatuses] at hp
  split at hp
  · simp at hp
  · rw [paginate] at hp
    have hmem : p ∈ eligibleSorted st viewer target now q := by
      revert hp
      split
      · intro hp
        exact List.take_subset _ _ (List.take_subset _ _ hp)
      · intro hp
        exact List.take_subset _ _ hp
    rw [eligibleSorted] at hmem
    exact (List.mem_filter.mp (mem_sortByRel.mp hmem)).2

/-! ## Claim theorems -/

/-- C1: the code contradicts the claim.  In `c1state` the viewer's only
Follow edge toward the target is pending (`approved = null`) and the
viewer is not the author, yet the target's `private`-visibility post is
included in the status listing — the query on source lines 570-583 tests
only the existence of a Follow row and never inspects `approved`, so a
pending follow does grant visibility to private posts. -/
theorem pending_follow_sees_private_post :
    c1post ∈ (accountStatuses c1state 1 2 0 plainQuery).1
      ∧ c1state.follows = [c1follow]
      ∧ c1follow.approved = none
      ∧ c1post.visibility = .private_
      ∧ c1post.accountId = 2 := by
  decide

/-- C2: once a Block row `A → B` exists, no post authored by B survives
the listing filter for viewer A (whatever the target and options), no
post authored by A survives the listing filter for viewer B, and the
listing of A's statuses computed for viewer B is the empty list via the
short-circuit of source lines 545-547. -/
theorem block_suppresses_both_directions (st : DB) (A B t now : Nat)
    (q : StatusesQuery)
    (hb : ∃ b ∈ st.blocks, b.accountId = A ∧ b.blockedAccountId = B) :
    ((accountStatuses st A t now q).1.all fun p => p.accountId != B) = true
      ∧ ((accountStatuses st B t now q).1.all fun p => p.accountId != A) = true
      ∧ (accountStatuses st B A now q).1 = [] := by
  obtain ⟨b, hbmem, hbA, hbB⟩ := hb
  refine ⟨?_, ?_, ?_⟩
  · rw [List.all_eq_true]
    intro p hp
    have hw := mem_statuses_postWhere hp
    simp only [postWhere, Bool.and_eq_true, Bool.not_eq_true'] at hw
    obtain ⟨⟨⟨⟨⟨⟨⟨⟨⟨⟨_, _⟩, _⟩, hnb⟩, _⟩, _⟩, _⟩, _⟩, _⟩, _⟩, _⟩ := hw
    rw [bne_iff_ne]
    intro hpB
    have : authorBlockedByViewer st A p.accountId = true := by
      rw [authorBlockedByViewer, List.any_eq_true]
      exact ⟨b, hbmem, by simp [hbA, hbB, hpB]⟩
    rw [hnb] at this
    exact Bool.false_ne_true this
  · rw [List.all_eq_true]
    intro p hp
    have hw := mem_statuses_postWhere hp
    simp only [postWhere, Bool.and_eq_true, Bool.not_eq_true'] at hw
    obtain ⟨⟨⟨⟨⟨⟨⟨⟨⟨⟨_, _⟩, _⟩, _⟩, hnb⟩, _⟩, _⟩, _⟩, _⟩, _⟩, _⟩ := hw
    rw [bne_iff_ne]
    intro hpA
    have : authorBlocksViewer st B p.accountId = true := by
      rw [authorBlocksViewer, List.any_eq_true]
      exact ⟨b, hbmem, by simp [hbA, hbB, hpA]⟩
    rw [hnb] at this
    exact Bool.false_ne_true this
  · have : targetBlockedViewer st B A = true := by
      rw [targetBlockedViewer, List.any_eq_true]
      exact ⟨b, hbmem, by simp [hbA, hbB]⟩
    rw [accountStatuses, if_pos this]

/-- C2 witness: a concrete store where account 1 has blocked account 2
and both have a public post. -/
theorem block_suppresses_both_directions_witness :
    ((accountStatuses ⟨[], [], [⟨1, 2⟩], [],
        [⟨5, 2, 1, .public, none, none⟩, ⟨6, 1, 1, .public, none, none⟩],
        [], [], []⟩ 1 2 0 plainQuery).1.all fun p => p.accountId != 2) = true
      ∧ ((accountStatuses ⟨[], [], [⟨1, 2⟩], [],
          [⟨5, 2, 1, .public, none, none⟩, ⟨6, 1, 1, .public, none, none⟩],
          [], [], []⟩ 2 2 0 plainQuery).1.all fun p => p.accountId != 1) = true
      ∧ (accountStatuses ⟨[], [], [⟨1, 2⟩], [],
          [⟨5, 2, 1, .public, none, none⟩, ⟨6, 1, 1, .public, none, none⟩],
          [], [], []⟩ 2 1 0 plainQuery).1 = [] :=
  block_suppresses_both_directions _ 1 2 2 0 plainQuery
    ⟨⟨1, 2⟩, by decide, by decide, by decide⟩

/-- C3: the code contradicts the claim.  With three eligible public posts
(ids 3, 2, 1) and `limit = 1`, following the returned `max_id` cursors
enumerates only the posts with ids 3 and 1: the cursor is the id of the
first row *not* returned (`postList[limit]`, source line 678) while the
next request filters with the strict bound `id < max_id` (source line
668), so the cursor post itself (id 2) is skipped. -/
theorem pagination_skips_cursor_post :
    List.filter (postWhere c3state 1 2 0 c3query) c3state.posts
        = [⟨3, 2, 3, .public, none, none⟩, ⟨2, 2, 2, .public, none, none⟩,
           ⟨1, 2, 1, .public, none, none⟩]
      ∧ fetchAllPages c3state 1 2 0 c3query 5 none
        = [⟨3, 2, 3, .public, none, none⟩, ⟨1, 2, 1, .public, none, none⟩] := by
  decide

/-- C4: when the target has not blocked the viewer, the statuses handler
returns exactly the first `limit` rows of the eligible result set ordered
by `(published desc, id desc)`, and the `max_id` cursor is the id of the
`(limit+1)`-th fetched row when one exists (i.e. when more than `limit`
rows come back) and absent otherwise. -/
theorem statuses_page_and_cursor (st : DB) (viewer target now : Nat)
    (q : StatusesQuery)
    (hnb : targetBlockedViewer st viewer target = false) :
    accountStatuses st viewer target now q =
        ((eligibleSorted st viewer target now q).take q.limit,
          ((eligibleSorted st viewer target now q)[q.limit]?).map Post.id)
      ∧ List.Pairwise (fun a b => postOrd a b = true)
          (eligibleSorted st viewer target now q) := by
  constructor
  · rw [accountStatuses, if_neg (by simp [hnb]), paginate]
    by_cases h : q.limit < (eligibleSorted st viewer target now q).length
    · have h1 : q.limit < ((eligibleSorted st viewer target now q).take (q.limit + 1)).length := by
        rw [List.length_take]
        omega
      rw [List.getElem?_eq_getElem h1, List.getElem?_eq_getElem h, List.getElem_take]
      rw [List.take_take]
      have h2 : q.limit ⊓ (q.limit + 1) = q.limit := inf_eq_left.mpr (by omega)
      rw [h2]
      rfl
    · have h1 : (eligibleSorted st viewer target now q).take (q.limit + 1)
          = eligibleSorted st viewer target now q :=
        List.take_of_length_le (by omega)
      have h2 : (eligibleSorted st viewer target now q)[q.limit]? = none :=
        List.getElem?_eq_none (by omega)
      rw [h1, h2, List.take_of_length_le (by omega)]
      rfl
  · rw [eligibleSorted]
    exact pairwise_sortByRel postOrd_trans postOrd_total _

/-- C4 witness: two public posts, `limit = 1`: the page is the newest
post and the cursor is the id of the second. -/
theorem statuses_page_and_cursor_witness :
    accountStatuses ⟨[], [], [], [],
        [⟨7, 2, 7, .public, none, none⟩, ⟨4, 2, 4, .public, none, none⟩],
        [], [], []⟩ 1 2 0 ⟨false, false, false, none, none, 1⟩ =
        ((eligibleSorted ⟨[], [], [], [],
            [⟨7, 2, 7, .public, none, none⟩, ⟨4, 2, 4, .public, none, none⟩],
            [], [], []⟩ 1 2 0 ⟨false, false, false, none, none, 1⟩).take 1,
          ((eligibleSorted ⟨[], [], [], [],
            [⟨7, 2, 7, .public, none, none⟩, ⟨4, 2, 4, .public, none, none⟩],
            [], [], []⟩ 1 2 0 ⟨false, false, false, none, none, 1⟩)[1]?).map Post.id)
      ∧ List.Pairwise (fun a b => postOrd a b = true)
          (eligibleSorted ⟨[], [], [], [],
            [⟨7, 2, 7, .public, none, none⟩, ⟨4, 2, 4, .public, none, none⟩],
            [], [], []⟩ 1 2 0 ⟨false, false, false, none, none, 1⟩) :=
  statuses_page_and_cursor _ 1 2 0 _ (by decide)

/-- C5: the mute row 1 → 2 is in force exactly when its `duration` is
null or `now < created + duration`, and the muted account's post appears
in the listing exactly when the mute is *not* in force — so a null
duration suppresses forever and a finite one stops suppressing as soon as
the clock passes `created + duration`. -/
theorem mute_expiry_characterization (now created : Nat) (dur : Option Nat)
    (ntf : Bool) :
    (muteIsActive now (mute12 ntf dur created) = true
        ↔ (dur = none ∨ ∃ d, dur = some d ∧ now < created + d))
      ∧ (c5post ∈ (accountStatuses (c5state ntf dur created) 1 2 now plainQuery).1
        ↔ muteIsActive now (mute12 ntf dur created) = false) := by
  constructor
  · cases dur with
    | none => simp [muteIsActive, mute12]
    | some d => simp [muteIsActive, mute12]
  · cases h : muteIsActive now (mute12 ntf dur created) with
    | true =>
      simp only [mute12] at h
      have hpw : postWhere (c5state ntf dur created) 1 2 now plainQuery c5post
          = false := by
        simp [postWhere, visibilityClause, followingExists, mentionsViewer,
          authorMutedByViewer, authorBlockedByViewer, authorBlocksViewer,
          sharedFromMutedAuthor, c5state, mute12, c5post, plainQuery, h]
      have hfil : List.filter
          (postWhere (c5state ntf dur created) 1 2 now plainQuery)
          (c5state ntf dur created).posts = [] := by
        have hposts : (c5state ntf dur created).posts = [c5post] := rfl
        rw [hposts, List.filter_cons, hpw]
        simp
      rw [accountStatuses, if_neg (by simp [targetBlockedViewer, c5state]),
        eligibleSorted, hfil]
      decide
    | false =>
      simp only [mute12] at h
      have hpw : postWhere (c5state ntf dur created) 1 2 now plainQuery c5post
          = true := by
        simp [postWhere, visibilityClause, followingExists, mentionsViewer,
          authorMutedByViewer, authorBlockedByViewer, authorBlocksViewer,
          sharedFromMutedAuthor, c5state, mute12, c5post, plainQuery, h]
      have hfil : List.filter
          (postWhere (c5state ntf dur created) 1 2 now plainQuery)
          (c5state ntf dur created).posts = [c5post] := by
        have hposts : (c5state ntf dur created).posts = [c5post] := rfl
        rw [hposts, List.filter_cons, hpw]
        simp
      rw [accountStatuses, if_neg (by simp [targetBlockedViewer, c5state]),
        eligibleSorted, hfil]
      decide

/-- C5 witness: at `now = 10` a mute created at 0 with duration 5 s. -/
theorem mute_expiry_characterization_witness :
    (muteIsActive 10 (mute12 true (some 5) 0) = true
        ↔ ((some 5 : Option Nat) = none
            ∨ ∃ d, (some 5 : Option Nat) = some d ∧ 10 < 0 + d))
      ∧ (c5post ∈ (accountStatuses (c5state true (some 5) 0) 1 2 10 plainQuery).1
        ↔ muteIsActive 10 (mute12 true (some 5) 0) = false) :=
  mute_expiry_characterization 10 0 (some 5) true

/-- Projection helper: replacing `mutes` stores exactly the given rows. -/
theorem db_set_mutes_mutes (st : DB) (M : List Mute) :
    ({ st with mutes := M } : DB).mutes = M := rfl

/-- Projection helper: replacing `mutes` leaves `posts` unchanged. -/
theorem db_set_mutes_posts (st : DB) (M : List Mute) :
    ({ st with mutes := M } : DB).posts = st.posts := rfl

/-- C6: general over the store, viewer, target, query options and posts.
Starting from any store with no mute row for the pair, let the viewer
mute `author` through the mute handler's upsert, and let `p` be any
repost (`sharingId` set) of an original post authored by `author`, the
mute being in force at listing time.  Then `p` is excluded from every
status listing computed for the viewer — regardless of the mute status
of `p`'s own author — and `unmute(viewer, author)` restores the store
exactly, so every listing (of the originals and of such reposts alike)
is again what it was before the mute; in the restored store the author
is no longer in the viewer's actively-muted set. -/
theorem repost_mute_suppression (st : DB)
    (viewer target now author sid newId mnow : Nat) (ntf : Bool)
    (dur : Option Nat) (q : StatusesQuery) (p orig : Post)
    (hfresh : st.mutes.any (mutePair viewer author) = false)
    (hshare : p.sharingId = some sid)
    (horig : orig ∈ st.posts) (hoid : orig.id = sid)
    (horiga : orig.accountId = author)
    (hactive : muteIsActive now (⟨newId, viewer, author, ntf, dur, mnow⟩ : Mute)
      = true) :
    p ∉ (accountStatuses
        { st with mutes := muteUpsert st.mutes newId viewer author ntf dur mnow }
        viewer target now q).1
      ∧ unmuteOp
          { st with mutes := muteUpsert st.mutes newId viewer author ntf dur mnow }
          viewer author = st
      ∧ accountStatuses
          (unmuteOp
            { st with mutes := muteUpsert st.mutes newId viewer author ntf dur mnow }
            viewer author)
          viewer target now q
        = accountStatuses st viewer target now q
      ∧ authorMutedByViewer st viewer now author = false := by
  have hstm : muteUpsert st.mutes newId viewer author ntf dur mnow
      = st.mutes ++ [⟨newId, viewer, author, ntf, dur, mnow⟩] := by
    rw [muteUpsert, if_neg (by simp [hfresh])]
  have hshm : sharedFromMutedAuthor
      { st with mutes := muteUpsert st.mutes newId viewer author ntf dur mnow }
      viewer now p = true := by
    simp only [sharedFromMutedAuthor, hshare]
    rw [db_set_mutes_posts, List.any_eq_true]
    refine ⟨orig, horig, ?_⟩
    rw [hoid, horiga]
    simp [authorMutedByViewer, db_set_mutes_mutes, hstm, List.any_append, hactive]
  have hrt : unmuteOp
      { st with mutes := muteUpsert st.mutes newId viewer author ntf dur mnow }
      viewer author = st := by
    rw [unmuteOp, db_set_mutes_mutes, hstm, List.filter_append]
    have h1 : st.mutes.filter
        (fun m => !(m.accountId == viewer && m.mutedAccountId == author))
        = st.mutes := by
      rw [List.filter_eq_self]
      intro m hm
      have hx : mutePair viewer author m = false :=
        Bool.of_not_eq_true (List.any_eq_false.mp hfresh m hm)
      show (!(mutePair viewer author m)) = true
      rw [hx]
      rfl
    have h2 : List.filter
        (fun m => !(m.accountId == viewer && m.mutedAccountId == author))
        [(⟨newId, viewer, author, ntf, dur, mnow⟩ : Mute)] = [] := by
      simp
    rw [h1, h2, List.append_nil]
  refine ⟨?_, hrt, ?_, ?_⟩
  · intro hp
    have hw := mem_statuses_postWhere hp
    simp only [postWhere, Bool.and_eq_true, Bool.not_eq_true'] at hw
    obtain ⟨⟨⟨⟨⟨⟨⟨⟨⟨⟨_, _⟩, _⟩, _⟩, _⟩, hsh⟩, _⟩, _⟩, _⟩, _⟩, _⟩ := hw
    rw [hshm] at hsh
    exact Bool.noConfusion hsh
  · rw [hrt]
  · rw [authorMutedByViewer, List.any_eq_false]
    intro m hm hc
    rw [Bool.and_eq_true] at hc
    have hpairt : mutePair viewer author m = true := hc.1
    have hx : mutePair viewer author m = false :=
      Bool.of_not_eq_true (List.any_eq_false.mp hfresh m hm)
    rw [hpairt] at hx
    exact Bool.noConfusion hx

/-- C6 witness: viewer 1 mutes author 2 indefinitely over a store holding
the original post and account 3's boost of it; listings are evaluated at
`now = 3` with the default query. -/
theorem repost_mute_suppression_witness :
    c6boost ∉ (accountStatuses
        { (⟨[], [], [], [], [c6orig, c6boost], [], [], []⟩ : DB) with
          mutes := muteUpsert
            (⟨[], [], [], [], [c6orig, c6boost], [], [], []⟩ : DB).mutes
            0 1 2 true none 0 }
        1 3 3 plainQuery).1
      ∧ unmuteOp
          { (⟨[], [], [], [], [c6orig, c6boost], [], [], []⟩ : DB) with
            mutes := muteUpsert
              (⟨[], [], [], [], [c6orig, c6boost], [], [], []⟩ : DB).mutes
              0 1 2 true none 0 }
          1 2 = ⟨[], [], [], [], [c6orig, c6boost], [], [], []⟩
      ∧ accountStatuses
          (unmuteOp
            { (⟨[], [], [], [], [c6orig, c6boost], [], [], []⟩ : DB) with
              mutes := muteUpsert
                (⟨[], [], [], [], [c6orig, c6boost], [], [], []⟩ : DB).mutes
                0 1 2 true none 0 }
            1 2)
          1 3 3 plainQuery
        = accountStatuses (⟨[], [], [], [], [c6orig, c6boost], [], [], []⟩ : DB)
            1 3 3 plainQuery
      ∧ authorMutedByViewer (⟨[], [], [], [], [c6orig, c6boost], [], [], []⟩ : DB)
          1 3 2 = false :=
  repost_mute_suppression ⟨[], [], [], [], [c6orig, c6boost], [], [], []⟩
    1 3 3 2 10 0 0 true none plainQuery c6boost c6orig (by decide) (by decide)
    (by decide) (by decide) (by decide) (by decide)

/-- C7: the mute upsert keyed on `(accountId, mutedAccountId)` preserves
the at-most-one-row-per-pair invariant: after the operation exactly one
row for the pair exists, that row carries the new `notifications`,
`duration` and `created = now` values, and the table grows only when no
row for the pair existed — re-muting never inserts a second row. -/
theorem mute_upsert_single_row (rows : List Mute) (newId accId mutedId : Nat)
    (ntf : Bool) (dur : Option Nat) (now : Nat)
    (hu : (rows.filter (mutePair accId mutedId)).length ≤ 1) :
    ((muteUpsert rows newId accId mutedId ntf dur now).filter
        (mutePair accId mutedId)).length = 1
      ∧ ((muteUpsert rows newId accId mutedId ntf dur now).filter
          (mutePair accId mutedId)).all
          (fun m => m.notifications == ntf && m.duration == dur && m.created == now)
          = true
      ∧ (muteUpsert rows newId accId mutedId ntf dur now).length
          = (if rows.any (mutePair accId mutedId) then rows.length
             else rows.length + 1) := by
  by_cases h : rows.any (mutePair accId mutedId) = true
  · rw [muteUpsert, if_pos h]
    have hpair : ∀ m ∈ rows, mutePair accId mutedId
        (if mutePair accId mutedId m then
          { m with notifications := ntf, duration := dur, created := now }
        else m) = mutePair accId mutedId m := by
      intro m _
      by_cases hm : mutePair accId mutedId m = true
      · rw [if_pos hm]
        simp [mutePair]
      · rw [if_neg hm]
    have hmapfil : (rows.map fun m =>
          if mutePair accId mutedId m then
            { m with notifications := ntf, duration := dur, created := now }
          else m).filter (mutePair accId mutedId)
        = (rows.filter (mutePair accId mutedId)).map fun m =>
            if mutePair accId mutedId m then
              { m with notifications := ntf, duration := dur, created := now }
            else m := by
      rw [List.filter_map]
      simp only [Function.comp_def]
      rw [List.filter_congr hpair]
    have hlone : (rows.filter (mutePair accId mutedId)).length = 1 := by
      obtain ⟨x, hx, hpx⟩ := List.any_eq_true.mp h
      have hmem : x ∈ rows.filter (mutePair accId mutedId) :=
        List.mem_filter.mpr ⟨hx, hpx⟩
      have hpos : 0 < (rows.filter (mutePair accId mutedId)).length :=
        List.length_pos.mpr fun hnil => List.not_mem_nil x (hnil ▸ hmem)
      omega
    refine ⟨?_, ?_, ?_⟩
    · rw [hmapfil, List.length_map, hlone]
    · rw [hmapfil, List.all_eq_true]
      intro x hx
      obtain ⟨m, hm, rfl⟩ := List.mem_map.mp hx
      rw [if_pos (List.mem_filter.mp hm).2]
      simp
    · rw [if_pos h, List.length_map]
  · rw [muteUpsert, if_neg h]
    have hnil : rows.filter (mutePair accId mutedId) = [] :=
      List.filter_eq_nil_iff.mpr
        (List.any_eq_false.mp (Bool.of_not_eq_true h))
    have hnew : mutePair accId mutedId
        (⟨newId, accId, mutedId, ntf, dur, now⟩ : Mute) = true := by
      simp [mutePair]
    refine ⟨?_, ?_, ?_⟩
    · rw [List.filter_append, hnil, List.nil_append, List.filter_cons, hnew]
      simp
    · rw [List.filter_append, hnil, List.nil_append, List.filter_cons, hnew]
      simp
    · rw [if_neg h, List.length_append]
      simp

/-- C7 witness: re-muting the already-muted pair (1, 2) overwrites the
row in place. -/
theorem mute_upsert_single_row_witness :
    ((muteUpsert [⟨0, 1, 2, false, none, 0⟩] 9 1 2 true (some 30) 5).filter
        (mutePair 1 2)).length = 1
      ∧ ((muteUpsert [⟨0, 1, 2, false, none, 0⟩] 9 1 2 true (some 30) 5).filter
          (mutePair 1 2)).all
          (fun m => m.notifications == true && m.duration == some 30 && m.created == 5)
          = true
      ∧ (muteUpsert [⟨0, 1, 2, false, none, 0⟩] 9 1 2 true (some 30) 5).length
          = (if [(⟨0, 1, 2, false, none, 0⟩ : Mute)].any (mutePair 1 2) then
              [(⟨0, 1, 2, false, none, 0⟩ : Mute)].length
             else [(⟨0, 1, 2, false, none, 0⟩ : Mute)].length + 1) :=
  mute_upsert_single_row [⟨0, 1, 2, false, none, 0⟩] 9 1 2 true (some 30) 5
    (by decide)

/-- C8: a requested duration of zero or less is stored as a null
(indefinite) duration; a positive duration `d` is stored as the
time-of-day string `HH:MM:SS` of `d mod 86400` seconds — so whole days
are silently dropped, and a requested 86400 s mute is stored as the
zero-length duration `"00:00:00"`. -/
theorem mute_duration_storage :
    (∀ d : Int, durationStr d
        = if d ≤ 0 then none else some (hhmmss (d.toNat % 86400)))
      ∧ durationStr 86400 = some "00:00:00"
      ∧ durationStr 86399 = some "23:59:59"
      ∧ durationStr 0 = none
      ∧ durationStr (-5) = none := by
  refine ⟨?_, by decide, by decide, by decide, by decide⟩
  intro d
  rw [durationStr]
  by_cases h : d ≤ 0
  · rw [if_pos h, if_pos h]
  · rw [if_neg h, if_neg h]
    have h1 : d.toNat / 3600 % 24 = d.toNat % 86400 / 3600 := by omega
    have h2 : d.toNat / 60 % 60 = d.toNat % 86400 / 60 % 60 := by omega
    have h3 : d.toNat % 60 = d.toNat % 86400 % 60 := by omega
    rw [isoTimeOfDay, hhmmss, h1, h2, h3]

/-- C9: when the follow precondition is violated — a Block row in either
direction between the two accounts, or a self-follow — the engine returns
the `null` sentinel (not an exception), the handler answers with the
403-style `actionNotAllowed` result, and the store (in particular the
Follow table) is left unchanged. -/
theorem follow_blocked_returns_sentinel (st : DB) (now ownerId targetId : Nat)
    (acc : Account) (hacc : findAccount st targetId = some acc)
    (hv : blockExistsBetween st ownerId targetId = true ∨ ownerId = targetId) :
    (followAccount st now ownerId targetId acc.protected_).1 = none
      ∧ followHandler st now ownerId targetId = (.actionNotAllowed, st) := by
  have hcond : (blockExistsBetween st ownerId targetId || (ownerId == targetId))
      = true := by
    rcases hv with h | h
    · simp [h]
    · simp [h]
  constructor
  · simp [followAccount, hcond]
  · simp [followHandler, hacc, followAccount, hcond]

/-- C9 witness: account 1 follows account 2 while a block 1 → 2 exists. -/
theorem follow_blocked_returns_sentinel_witness :
    (followAccount ⟨[⟨2, "b", "ib", false, false⟩], [], [⟨1, 2⟩], [], [], [], [], []⟩
        0 1 2 (⟨2, "b", "ib", false, false⟩ : Account).protected_).1 = none
      ∧ followHandler ⟨[⟨2, "b", "ib", false, false⟩], [], [⟨1, 2⟩], [], [], [], [], []⟩
          0 1 2
        = (.actionNotAllowed,
           ⟨[⟨2, "b", "ib", false, false⟩], [], [⟨1, 2⟩], [], [], [], [], []⟩) :=
  follow_blocked_returns_sentinel _ 0 1 2 ⟨2, "b", "ib", false, false⟩
    (by decide) (Or.inl (by decide))

/-- C10: lookup is local-first and remotely idempotent.  With no local
row matching the normalized handle and a fresh IRI, one lookup performs
exactly one remote dereference and appends exactly one Account row;
persisting the same document again matches the existing row by IRI and
adds nothing; and a second lookup of the same identifier finds the
materialized local row with zero further dereferences, returning the
store unchanged. -/
theorem lookup_local_first_idempotent (world : String → Option ActorDoc)
    (st : DB) (host acct : String) (doc : ActorDoc)
    (h1 : findByHandle st (normalizeHandle host acct) = none)
    (h2 : world acct = some doc)
    (h3 : doc.isActor = true)
    (h4 : doc.handle = normalizeHandle host acct)
    (h5 : findByIri st doc.iri = none) :
    lookupHandler world st host acct false
        = (.found (persistAccount st doc).1, (persistAccount st doc).2, 1)
      ∧ ((persistAccount st doc).2).accounts.length = st.accounts.length + 1
      ∧ ((persistAccount ((persistAccount st doc).2) doc).2).accounts.length
          = st.accounts.length + 1
      ∧ lookupHandler world ((persistAccount st doc).2) host acct false
        = (.found (persistAccount st doc).1, (persistAccount st doc).2, 0) := by
  have h1' : List.find? (fun a => a.handle == normalizeHandle host acct)
      st.accounts = none := h1
  have h5' : List.find? (fun a => a.iri == doc.iri) st.accounts = none := h5
  have hpa : persistAccount st doc
      = (⟨st.accounts.length, doc.handle, doc.iri, false, false⟩,
         { st with
           accounts := st.accounts
             ++ [⟨st.accounts.length, doc.handle, doc.iri, false, false⟩] }) := by
    rw [persistAccount, h5]
  refine ⟨?_, ?_, ?_, ?_⟩
  · simp [lookupHandler, h1, h2, h3]
  · rw [hpa]
    simp
  · have hfind2 : findByIri (persistAccount st doc).2 doc.iri
        = some (⟨st.accounts.length, doc.handle, doc.iri, false, false⟩ : Account) := by
      rw [hpa, findByIri, List.find?_append, h5', Option.none_or,
        List.find?_cons_of_pos _ (by simp)]
    rw [persistAccount, hfind2]
    rw [hpa]
    simp
  · have hfh : findByHandle (persistAccount st doc).2 (normalizeHandle host acct)
        = some (persistAccount st doc).1 := by
      rw [hpa, findByHandle, List.find?_append, h1', Option.none_or,
        List.find?_cons_of_pos _ (by simp [h4])]
    simp [lookupHandler, hfh]

/-- C10 witness: resolving `alice@remote.example` twice against an empty
store. -/
theorem lookup_local_first_idempotent_witness :
    lookupHandler c10world ⟨[], [], [], [], [], [], [], []⟩
        "local.test" "alice@remote.example" false
        = (.found (persistAccount ⟨[], [], [], [], [], [], [], []⟩ c10doc).1,
           (persistAccount ⟨[], [], [], [], [], [], [], []⟩ c10doc).2, 1)
      ∧ ((persistAccount ⟨[], [], [], [], [], [], [], []⟩ c10doc).2).accounts.length
          = (⟨[], [], [], [], [], [], [], []⟩ : DB).accounts.length + 1
      ∧ ((persistAccount
            ((persistAccount ⟨[], [], [], [], [], [], [], []⟩ c10doc).2)
            c10doc).2).accounts.length
          = (⟨[], [], [], [], [], [], [], []⟩ : DB).accounts.length + 1
      ∧ lookupHandler c10world
          ((persistAccount ⟨[], [], [], [], [], [], [], []⟩ c10doc).2)
          "local.test" "alice@remote.example" false
        = (.found (persistAccount ⟨[], [], [], [], [], [], [], []⟩ c10doc).1,
           (persistAccount ⟨[], [], [], [], [], [], [], []⟩ c10doc).2, 0) :=
  lookup_local_first_idempotent c10world ⟨[], [], [], [], [], [], [], []⟩
    "local.test" "alice@remote.example" c10doc (by decide) (by decide)
    (by decide) (by decide) (by decide)

end Hollo
